import Mathlib

/-!
Shallow embedding of the stepwise K-Means clustering engine from
`src/components/Dashboard.tsx` (the `KMeansClusterer` component).

The React component's state variables (`points`, `clusters`, `centroids`,
`clusterColors`, `iterationHistory`, `currentIteration`, `isConverged`)
become the fields of `KMState`; each handler becomes a state-transition
function.  JavaScript numbers are modelled as `ℚ` (the engine only adds,
divides and compares coordinates); `currentIteration` is modelled as `ℤ`
so that the `Math.max(0, prev - 1)` clamp in the revert handler is
represented faithfully.  Randomness (the shuffle comparator in
`initializeCentroids` and the colour generator) is made explicit: the
shuffled point order and the colour source are parameters.
-/

namespace KMeans

/-- `interface Point { x; y; cluster?; name }`. -/
structure Point where
  x : ℚ
  y : ℚ
  cluster : Option ℕ
  name : String
deriving DecidableEq

instance : Inhabited Point := ⟨⟨0, 0, none, ""⟩⟩

/-- `interface Centroid { x; y }`. -/
structure Centroid where
  x : ℚ
  y : ℚ
deriving DecidableEq

instance : Inhabited Centroid := ⟨⟨0, 0⟩⟩

/-- The component's state variables, gathered in one record. -/
structure KMState where
  points : List Point
  clusters : ℕ
  centroids : List Centroid
  clusterColors : List String
  iterationHistory : List (List Point × List Centroid)
  currentIteration : ℤ
  isConverged : Bool
deriving DecidableEq

/-- The initial `useState` values: no points, `clusters = 2`, everything
else empty / zero / false. -/
def initialState : KMState :=
  { points := []
    clusters := 2
    centroids := []
    clusterColors := []
    iterationHistory := []
    currentIteration := 0
    isConverged := false }

/-- Squared Euclidean distance.  The source's `calculateDistance` returns
`Math.sqrt` of this quantity; the engine only ever compares distances, and
`Real.sqrt` is strictly monotone on nonnegative arguments, so the square
root is applied at the statement level (see the assignment theorems) while
the executable transition functions compare the squares. -/
def calculateDistanceSq (p : Point) (c : Centroid) : ℚ :=
  (p.x - c.x) ^ 2 + (p.y - c.y) ^ 2

/-- `generateRandomColors(k)`: builds `k` colour strings from a random
source, modelled as an explicit generator `rng`. -/
def generateRandomColors (k : ℕ) (rng : ℕ → String) : List String :=
  (List.range k).map rng

/-- `initializeCentroids()`: shuffles the points array in place
(`points.sort(() => 0.5 - Math.random())` — `shuffled` is the resulting
permutation of `points`), copies the first `clusters` of them as the new
centroids, generates fresh colours, and resets iteration count,
convergence flag and history.  There is no precondition check in the
source; the UI merely disables the button when `points.length < clusters`.
Note that the in-place sort mutates the `points` state array, so the
points sequence afterwards is `shuffled`; the points' `cluster` fields are
not touched. -/
def initializeCentroids (s : KMState) (shuffled : List Point) (rng : ℕ → String) : KMState :=
  { s with
    points := shuffled
    centroids := (shuffled.take s.clusters).map (fun p => (⟨p.x, p.y⟩ : Centroid))
    clusterColors := generateRandomColors s.clusters rng
    currentIteration := 0
    isConverged := false
    iterationHistory := [] }

/-- `d.indexOf(Math.min(...d))`: the index of the first occurrence of the
minimum of the list.  (`Math.min()` of an empty spread is `Infinity` and
`indexOf` then yields `-1`; the guard in `performKMeansIteration` makes
the empty case unreachable, and it is mapped to `0` here.) -/
def idxOfMin (l : List ℚ) : ℕ :=
  match l.min? with
  | some m => l.indexOf m
  | none => 0

/-- The assignment phase: for every point, the distances row
`centroids.map(c => calculateDistance(point, c))` and its
`indexOf(Math.min(...))`. -/
def computeLabels (pts : List Point) (cents : List Centroid) : List ℕ :=
  pts.map (fun p => idxOfMin (cents.map (fun c => calculateDistanceSq p c)))

/-- `points.filter((_, i) => labels[i] === clusterIndex)`: the points whose
label is `clusterIndex` (the filter is by index, hence the zip with the
labels row, which has the same length as `pts` wherever it is used). -/
def clusterPointsOf (pts : List Point) (labels : List ℕ) (clusterIndex : ℕ) : List Point :=
  ((pts.zip labels).filter (fun q => q.2 == clusterIndex)).map (fun q => q.1)

/-- The update phase: `centroids.map((_, clusterIndex) => ...)` — each
centroid is recomputed as the mean of its assigned points, and kept
as `centroids[clusterIndex]` when no point is assigned to it. -/
def updateCentroids (pts : List Point) (labels : List ℕ) (cents : List Centroid) : List Centroid :=
  (List.range cents.length).map (fun clusterIndex =>
    let cps := clusterPointsOf pts labels clusterIndex
    if cps.length = 0 then cents.getD clusterIndex default
    else
      ⟨(cps.foldl (fun sum p => sum + p.x) 0) / (cps.length : ℚ),
       (cps.foldl (fun sum p => sum + p.y) 0) / (cps.length : ℚ)⟩)

/-- `points.map((point, index) => ({...point, cluster: labels[index]}))`. -/
def assignClusters (pts : List Point) (labels : List ℕ) : List Point :=
  (pts.zip labels).map (fun q => { q.1 with cluster := some q.2 })

/-- `newCentroids.every((c, i) => |c.x - centroids[i].x| < 0.001 && |c.y -
centroids[i].y| < 0.001)` (the literal `0.001` is modelled as `1/1000`). -/
def convergenceCheck (newCents oldCents : List Centroid) : Bool :=
  (newCents.zip oldCents).all (fun q =>
    decide (|q.1.x - q.2.x| < 1 / 1000) && decide (|q.1.y - q.2.y| < 1 / 1000))

/-- `performKMeansIteration()`: no-op when `points` or `centroids` is empty
(the source's early `return`; note the absence of any `isConverged`
guard — that check lives only in the UI's `disabled` prop); otherwise
pushes the pre-step `{points, centroids}` onto the history, reassigns
every point to its nearest centroid, recomputes the centroids, sets the
convergence flag when every centroid moved less than `0.001` on both
axes, and increments the iteration counter. -/
def performKMeansIteration (s : KMState) : KMState :=
  if s.points.length = 0 ∨ s.centroids.length = 0 then s
  else
    let labels := computeLabels s.points s.centroids
    let newCentroids := updateCentroids s.points labels s.centroids
    let newPoints := assignClusters s.points labels
    let hasConverged := convergenceCheck newCentroids s.centroids
    { s with
      iterationHistory := s.iterationHistory ++ [(s.points, s.centroids)]
      centroids := newCentroids
      points := newPoints
      currentIteration := s.currentIteration + 1
      isConverged := s.isConverged || hasConverged }

/-- `revertToPreviousIteration()`: when the history is non-empty, restores
`iterationHistory[length - 1]` as the current points and centroids, drops
it from the history, and sets the iteration counter to
`Math.max(0, prev - 1)`.  The convergence flag is not touched. -/
def revertToPreviousIteration (s : KMState) : KMState :=
  if 0 < s.iterationHistory.length then
    let lastState := s.iterationHistory.getLastD ([], [])
    { s with
      centroids := lastState.2
      points := lastState.1
      iterationHistory := s.iterationHistory.dropLast
      currentIteration := max 0 (s.currentIteration - 1) }
  else s

/-- `handleMouseDown`: after the pixel-to-data inversion and rounding, the
integer coordinates are range-checked and the point appended with the
auto-generated name `p{length+1}`. -/
def handleMouseDown (s : KMState) (x y : ℤ) : KMState :=
  if 0 ≤ x ∧ x ≤ 10 ∧ 0 ≤ y ∧ y ≤ 10 then
    { s with
      points := s.points ++
        [{ x := (x : ℚ), y := (y : ℚ), cluster := none,
           name := "p" ++ toString (s.points.length + 1) }] }
  else s

/-- `resetClustering()`: clears points, centroids, colours, history,
iteration counter and convergence flag (the `clusters` input keeps its
value). -/
def resetClustering (s : KMState) : KMState :=
  { s with
    points := []
    centroids := []
    clusterColors := []
    iterationHistory := []
    currentIteration := 0
    isConverged := false }

/-- The `NumberInput` handler `setClusters` (bounded `1..10` in the UI). -/
def setClustersOp (s : KMState) (k : ℕ) : KMState :=
  { s with clusters := k }

/-- The states reachable from the initial render by the component's
handlers.  `initializeCentroids` may be invoked with any permutation of
the current points (the random shuffle) and any colour source. -/
inductive Reachable : KMState → Prop
  | init : Reachable initialState
  | addPoint (s : KMState) (x y : ℤ) : Reachable s → Reachable (handleMouseDown s x y)
  | setK (s : KMState) (k : ℕ) : Reachable s → 1 ≤ k → k ≤ 10 →
      Reachable (setClustersOp s k)
  | seed (s : KMState) (shuffled : List Point) (rng : ℕ → String) :
      Reachable s → shuffled.Perm s.points →
      Reachable (initializeCentroids s shuffled rng)
  | step (s : KMState) : Reachable s → Reachable (performKMeansIteration s)
  | revert (s : KMState) : Reachable s → Reachable (revertToPreviousIteration s)
  | reset (s : KMState) : Reachable s → Reachable (resetClustering s)

/-! ### Helper lemmas -/

instance : Std.Antisymm (fun a b : ℚ => a ≤ b) :=
  ⟨fun h h' => le_antisymm h h'⟩

lemma min?_spec {l : List ℚ} {m : ℚ} (h : l.min? = some m) :
    m ∈ l ∧ ∀ b ∈ l, m ≤ b := by
  rw [List.min?_eq_some_iff (fun a => le_refl a) (fun a b => min_choice a b)
    (fun a b c => le_min_iff)] at h
  exact h

lemma min?_isSome_of_ne_nil {l : List ℚ} (h : l ≠ []) : ∃ m, l.min? = some m := by
  cases l with
  | nil => exact absurd rfl h
  | cons a as => exact ⟨as.foldl min a, rfl⟩

lemma idxOfMin_spec (l : List ℚ) (hl : l ≠ []) :
    idxOfMin l < l.length ∧
    (∀ j, j < l.length → l.getD (idxOfMin l) 0 ≤ l.getD j 0) ∧
    (∀ j, j < idxOfMin l → l.getD (idxOfMin l) 0 < l.getD j 0) := by
  obtain ⟨m, hm⟩ := min?_isSome_of_ne_nil hl
  obtain ⟨hmem, hle⟩ := min?_spec hm
  have hidx : idxOfMin l = l.indexOf m := by
    unfold idxOfMin
    rw [hm]
  have hlt : l.indexOf m < l.length := List.indexOf_lt_length.mpr hmem
  have hval : l.getD (idxOfMin l) 0 = m := by
    rw [hidx, List.getD_eq_getElem l 0 hlt]
    exact List.getElem_indexOf hlt
  refine ⟨hidx ▸ hlt, ?_, ?_⟩
  · intro j hj
    rw [hval, List.getD_eq_getElem l 0 hj]
    exact hle _ (l.getElem_mem hj)
  · intro j hj
    have hjl : j < l.length := lt_trans hj (hidx ▸ hlt)
    rw [hval, List.getD_eq_getElem l 0 hjl]
    have hne : l[j] ≠ m := by
      have := List.not_of_lt_findIdx (p := (· == m)) (by simpa [List.indexOf, hidx] using hj)
      simpa using this
    exact lt_of_le_of_ne (hle _ (l.getElem_mem hjl)) (Ne.symm hne)

lemma computeLabels_length (pts : List Point) (cents : List Centroid) :
    (computeLabels pts cents).length = pts.length := by
  simp [computeLabels]

lemma computeLabels_getD (pts : List Point) (cents : List Centroid) {i : ℕ}
    (hi : i < pts.length) :
    (computeLabels pts cents).getD i 0 =
      idxOfMin (cents.map (fun c => calculateDistanceSq (pts.getD i default) c)) := by
  rw [List.getD_eq_getElem _ _ (by simpa [computeLabels_length] using hi),
    List.getD_eq_getElem _ _ hi]
  simp [computeLabels]

lemma updateCentroids_length (pts : List Point) (labels : List ℕ) (cents : List Centroid) :
    (updateCentroids pts labels cents).length = cents.length := by
  simp [updateCentroids]

lemma updateCentroids_getD (pts : List Point) (labels : List ℕ) (cents : List Centroid)
    {i : ℕ} (hi : i < cents.length) :
    (updateCentroids pts labels cents).getD i default =
      (if (clusterPointsOf pts labels i).length = 0 then cents.getD i default
       else
         ⟨((clusterPointsOf pts labels i).foldl (fun sum p => sum + p.x) 0) /
            ((clusterPointsOf pts labels i).length : ℚ),
          ((clusterPointsOf pts labels i).foldl (fun sum p => sum + p.y) 0) /
            ((clusterPointsOf pts labels i).length : ℚ)⟩) := by
  rw [List.getD_eq_getElem _ _ (by simpa [updateCentroids_length] using hi)]
  simp [updateCentroids]

lemma assignClusters_length (pts : List Point) (labels : List ℕ)
    (h : labels.length = pts.length) :
    (assignClusters pts labels).length = pts.length := by
  simp [assignClusters, h]

lemma assignClusters_getD (pts : List Point) (labels : List ℕ)
    (h : labels.length = pts.length) {i : ℕ} (hi : i < pts.length) :
    (assignClusters pts labels).getD i default =
      { pts.getD i default with cluster := some (labels.getD i 0) } := by
  have hz : i < (pts.zip labels).length := by
    simpa [List.length_zip, h] using hi
  rw [List.getD_eq_getElem _ _ (by simpa [assignClusters_length pts labels h] using hi),
    List.getD_eq_getElem _ _ hi, List.getD_eq_getElem _ _ (h ▸ hi)]
  simp [assignClusters, List.getElem_zip]

/-- The step function, unfolded, when its guard passes. -/
lemma perform_eq_of_ne_nil (s : KMState) (hp : s.points ≠ []) (hc : s.centroids ≠ []) :
    performKMeansIteration s =
      { s with
        iterationHistory := s.iterationHistory ++ [(s.points, s.centroids)]
        centroids := updateCentroids s.points (computeLabels s.points s.centroids) s.centroids
        points := assignClusters s.points (computeLabels s.points s.centroids)
        currentIteration := s.currentIteration + 1
        isConverged := s.isConverged ||
          convergenceCheck
            (updateCentroids s.points (computeLabels s.points s.centroids) s.centroids)
            s.centroids } := by
  unfold performKMeansIteration
  rw [if_neg]
  simp [List.length_eq_zero, hp, hc]

/-- The step function is the identity when its guard fails. -/
lemma perform_eq_of_nil (s : KMState) (h : s.points = [] ∨ s.centroids = []) :
    performKMeansIteration s = s := by
  unfold performKMeansIteration
  rw [if_pos]
  rcases h with h | h <;> simp [h]

lemma convergenceCheck_iff (nc oc : List Centroid) (hlen : nc.length = oc.length) :
    convergenceCheck nc oc = true ↔
      ∀ i, i < oc.length →
        |(nc.getD i default).x - (oc.getD i default).x| < 1 / 1000 ∧
        |(nc.getD i default).y - (oc.getD i default).y| < 1 / 1000 := by
  unfold convergenceCheck
  rw [List.all_eq_true]
  constructor
  · intro h i hi
    have hz : i < (nc.zip oc).length := by
      rw [List.length_zip, hlen]
      exact lt_min hi hi
    have hq := h ((nc.zip oc)[i]) (List.getElem_mem hz)
    rw [List.getElem_zip] at hq
    simp only [Bool.and_eq_true, decide_eq_true_eq] at hq
    rw [List.getD_eq_getElem _ _ (hlen ▸ hi), List.getD_eq_getElem _ _ hi]
    exact hq
  · intro h q hq
    obtain ⟨i, hz, rfl⟩ := List.mem_iff_getElem.mp hq
    rw [List.getElem_zip]
    have hi : i < oc.length := by
      rw [List.length_zip] at hz
      exact lt_of_lt_of_le hz (min_le_right _ _)
    have hq' := h i hi
    rw [List.getD_eq_getElem _ _ (hlen ▸ hi), List.getD_eq_getElem _ _ hi] at hq'
    simp only [Bool.and_eq_true, decide_eq_true_eq]
    exact hq'

lemma foldl_add_eq_sum (f : Point → ℚ) (l : List Point) (a : ℚ) :
    l.foldl (fun sum p => sum + f p) a = a + (l.map f).sum := by
  induction l generalizing a with
  | nil => simp
  | cons p ps ih =>
    simp only [List.foldl_cons, List.map_cons, List.sum_cons, ih]
    ring

lemma clusterPointsOf_eq_nil_iff (pts : List Point) (labels : List ℕ) (i : ℕ)
    (h : labels.length = pts.length) :
    clusterPointsOf pts labels i = [] ↔
      ∀ j, j < pts.length → labels.getD j 0 ≠ i := by
  unfold clusterPointsOf
  rw [List.map_eq_nil_iff, List.filter_eq_nil_iff]
  constructor
  · intro hf j hj
    have hz : j < (pts.zip labels).length := by
      rw [List.length_zip, h]
      exact lt_min hj hj
    have hq := hf ((pts.zip labels)[j]) (List.getElem_mem hz)
    rw [List.getElem_zip] at hq
    simp only [beq_iff_eq, decide_eq_true_eq] at hq
    rw [List.getD_eq_getElem _ _ (h ▸ hj)]
    exact hq
  · intro hf q hq
    obtain ⟨j, hz, rfl⟩ := List.mem_iff_getElem.mp hq
    rw [List.getElem_zip]
    have hj : j < pts.length := by
      rw [List.length_zip] at hz
      exact lt_of_lt_of_le hz (min_le_left _ _)
    have hq' := hf j hj
    rw [List.getD_eq_getElem _ _ (h ▸ hj)] at hq'
    simpa using hq'

/-- In every reachable state the iteration counter equals the length of
the history stack. -/
lemma reachable_invariant {s : KMState} (h : Reachable s) :
    s.currentIteration = s.iterationHistory.length := by
  induction h with
  | init => rfl
  | addPoint s x y h ih =>
    unfold handleMouseDown
    split <;> simpa using ih
  | setK s k h hk1 hk2 ih => simpa [setClustersOp] using ih
  | seed s shuffled rng h hperm ih => simp [initializeCentroids]
  | step s h ih =>
    unfold performKMeansIteration
    split
    · exact ih
    · simp only [List.length_append, List.length_cons, List.length_nil]
      rw [ih]
      push_cast
      ring
  | revert s h ih =>
    unfold revertToPreviousIteration
    split
    · rename_i hlen
      simp only [List.length_dropLast]
      rw [ih]
      omega
    · exact ih
  | reset s h ih => rfl

/-! ### Claim theorems -/

/-- A state with too few points for `clusters = 1` and `isConverged = true`. -/
def stateC1 : KMState :=
  { points := []
    clusters := 1
    centroids := []
    clusterColors := []
    iterationHistory := []
    currentIteration := 0
    isConverged := true }

/-- C1: the claim "if initialize(k) is called when len(points) < k or k < 1
it fails with InvalidParameter and performs no mutation" is false of the
code: `initializeCentroids` has no precondition check (the guard is only
the UI's disabled button), and called with `len(points) = 0 < k = 1` it
still creates one colour and resets the convergence flag. -/
theorem C1_counterexample :
    stateC1.points.length < stateC1.clusters ∧
    (initializeCentroids stateC1 [] (fun _ => "c")).clusterColors.length = 1 ∧
    stateC1.clusterColors.length = 0 ∧
    (initializeCentroids stateC1 [] (fun _ => "c")).isConverged = false ∧
    stateC1.isConverged = true := by
  decide

/-- C1 (amended): `initializeCentroids` performs no precondition check:
for every state (also when `len(points) < k` or `k < 1`) it mutates — the
centroid list becomes the first `min k (len points)` shuffled points,
`k` colours are generated, `iterationCount` is reset to `0`, `converged`
to `false`, and the history is cleared. -/
theorem C1_amended (s : KMState) (shuffled : List Point) (rng : ℕ → String)
    (hperm : shuffled.Perm s.points) :
    (initializeCentroids s shuffled rng).centroids.length =
      min s.clusters s.points.length ∧
    (initializeCentroids s shuffled rng).clusterColors.length = s.clusters ∧
    (initializeCentroids s shuffled rng).currentIteration = 0 ∧
    (initializeCentroids s shuffled rng).isConverged = false ∧
    (initializeCentroids s shuffled rng).iterationHistory = [] := by
  refine ⟨?_, ?_, rfl, rfl, rfl⟩
  · simp [initializeCentroids, hperm.length_eq]
  · simp [initializeCentroids, generateRandomColors]

/-- Witness for C1 (amended) at `stateC1` with the empty shuffle. -/
theorem C1_witness :
    ([] : List Point).Perm stateC1.points ∧
    ((initializeCentroids stateC1 [] (fun _ => "c")).centroids.length =
      min stateC1.clusters stateC1.points.length ∧
    (initializeCentroids stateC1 [] (fun _ => "c")).clusterColors.length =
      stateC1.clusters ∧
    (initializeCentroids stateC1 [] (fun _ => "c")).currentIteration = 0 ∧
    (initializeCentroids stateC1 [] (fun _ => "c")).isConverged = false ∧
    (initializeCentroids stateC1 [] (fun _ => "c")).iterationHistory = []) :=
  ⟨List.Perm.refl [], C1_amended stateC1 [] (fun _ => "c") (List.Perm.refl [])⟩

/-- A converged state with one point and one centroid. -/
def stateC2 : KMState :=
  { points := [⟨0, 0, none, "p1"⟩]
    clusters := 1
    centroids := [⟨0, 0⟩]
    clusterColors := []
    iterationHistory := []
    currentIteration := 0
    isConverged := true }

/-- C2: the claim "calling step() when converged == true is a no-op that
never mutates any state" is false of the code: `performKMeansIteration`
only guards against empty points/centroids (the converged check lives
only in the UI's disabled button), so a step on a converged state still
increments the iteration counter and grows the history. -/
theorem C2_counterexample :
    stateC2.isConverged = true ∧
    (performKMeansIteration stateC2).currentIteration =
      stateC2.currentIteration + 1 ∧
    (performKMeansIteration stateC2).iterationHistory.length =
      stateC2.iterationHistory.length + 1 := by
  decide

/-- C2 (amended): `performKMeansIteration` is a no-op exactly on its own
guard — when the points list or the centroid list is empty it returns the
state unchanged (and raises no fault); the `converged` flag is not
consulted by the core function. -/
theorem C2_amended (s : KMState) (h : s.points = [] ∨ s.centroids = []) :
    performKMeansIteration s = s :=
  perform_eq_of_nil s h

/-- Witness for C2 (amended) at `stateC1` (empty points). -/
theorem C2_witness :
    (stateC1.points = [] ∨ stateC1.centroids = []) ∧
    performKMeansIteration stateC1 = stateC1 :=
  ⟨Or.inl rfl, C2_amended stateC1 (Or.inl rfl)⟩

/-- A state whose single point carries a stale cluster label. -/
def stateC3 : KMState :=
  { points := [⟨0, 0, some 5, "p1"⟩]
    clusters := 1
    centroids := []
    clusterColors := []
    iterationHistory := []
    currentIteration := 0
    isConverged := false }

/-- C3: the claim "after a successful initialize(k) every point's cluster
label is cleared" is false of the code: `initializeCentroids` never calls
`setPoints` (the in-place shuffle only reorders), so with one point
labelled `5` and `k = 1 ≤ len(points)` the label survives
initialization. -/
theorem C3_counterexample :
    1 ≤ stateC3.clusters ∧
    stateC3.clusters ≤ stateC3.points.length ∧
    ((initializeCentroids stateC3 stateC3.points
        (fun _ => "c")).points.getD 0 default).cluster = some 5 := by
  decide

/-- C3 (amended): a successful `initializeCentroids` resets
`iterationCount` to `0`, `converged` to `false` and empties the history,
but the points keep their existing cluster labels (the shuffle only
permutes the points, labels included). -/
theorem C3_amended (s : KMState) (shuffled : List Point) (rng : ℕ → String)
    (hperm : shuffled.Perm s.points) :
    (initializeCentroids s shuffled rng).currentIteration = 0 ∧
    (initializeCentroids s shuffled rng).isConverged = false ∧
    (initializeCentroids s shuffled rng).iterationHistory = [] ∧
    ((initializeCentroids s shuffled rng).points.map Point.cluster).Perm
      (s.points.map Point.cluster) :=
  ⟨rfl, rfl, rfl, hperm.map Point.cluster⟩

/-- Witness for C3 (amended) at `stateC3` with the identity shuffle. -/
theorem C3_witness :
    stateC3.points.Perm stateC3.points ∧
    ((initializeCentroids stateC3 stateC3.points (fun _ => "c")).currentIteration = 0 ∧
    (initializeCentroids stateC3 stateC3.points (fun _ => "c")).isConverged = false ∧
    (initializeCentroids stateC3 stateC3.points (fun _ => "c")).iterationHistory = [] ∧
    ((initializeCentroids stateC3 stateC3.points
        (fun _ => "c")).points.map Point.cluster).Perm
      (stateC3.points.map Point.cluster)) :=
  ⟨List.Perm.refl _, C3_amended stateC3 stateC3.points (fun _ => "c") (List.Perm.refl _)⟩

/-- C4: a `revert()` immediately after an enabled `step()` restores the
points (with their labels), the centroids, the iteration counter and the
whole history stack (hence its length) to their pre-step values.  The
step pushes the pre-step `(points, centroids)` onto the history; revert
pops exactly that snapshot, and since the post-step counter is positive
the `max 0` clamp is inert. -/
theorem C4_step_then_revert (s : KMState) (hp : s.points ≠ []) (hc : s.centroids ≠ [])
    (hi : 0 ≤ s.currentIteration) :
    (revertToPreviousIteration (performKMeansIteration s)).points = s.points ∧
    (revertToPreviousIteration (performKMeansIteration s)).centroids = s.centroids ∧
    (revertToPreviousIteration (performKMeansIteration s)).currentIteration =
      s.currentIteration ∧
    (revertToPreviousIteration (performKMeansIteration s)).iterationHistory =
      s.iterationHistory := by
  rw [perform_eq_of_ne_nil s hp hc]
  unfold revertToPreviousIteration
  rw [if_pos (by simp)]
  refine ⟨?_, ?_, ?_, ?_⟩
  · simp [List.getLastD_concat]
  · simp [List.getLastD_concat]
  · simp only
    omega
  · simp [List.dropLast_concat]

/-- A ready state: one unlabelled point, one centroid, fresh counters. -/
def stateC4 : KMState :=
  { points := [⟨0, 0, none, "p1"⟩]
    clusters := 1
    centroids := [⟨1, 1⟩]
    clusterColors := []
    iterationHistory := []
    currentIteration := 0
    isConverged := false }

/-- Witness for C4 at `stateC4`. -/
theorem C4_witness :
    stateC4.points ≠ [] ∧ stateC4.centroids ≠ [] ∧ 0 ≤ stateC4.currentIteration ∧
    ((revertToPreviousIteration (performKMeansIteration stateC4)).points =
      stateC4.points ∧
    (revertToPreviousIteration (performKMeansIteration stateC4)).centroids =
      stateC4.centroids ∧
    (revertToPreviousIteration (performKMeansIteration stateC4)).currentIteration =
      stateC4.currentIteration ∧
    (revertToPreviousIteration (performKMeansIteration stateC4)).iterationHistory =
      stateC4.iterationHistory) :=
  ⟨by decide, by decide, by decide,
    C4_step_then_revert stateC4 (by decide) (by decide) (by decide)⟩

lemma computeLabels_getD_lt (pts : List Point) (cents : List Centroid)
    (hc : cents ≠ []) {i : ℕ} (hi : i < pts.length) :
    (computeLabels pts cents).getD i 0 < cents.length := by
  rw [computeLabels_getD pts cents hi]
  have hne : (cents.map (fun c => calculateDistanceSq (pts.getD i default) c)) ≠ [] := by
    simpa using hc
  simpa using (idxOfMin_spec _ hne).1

/-- C9: after any `step()` with a non-empty centroid sequence, every
point's cluster label is set and lies in `[0, len(centroids))`, and the
step preserves the length of the centroid sequence.  (When the points
list is empty the step is a no-op and the property holds vacuously.) -/
theorem C9_assignment_validity (s : KMState) (hc : s.centroids ≠ []) :
    (∀ p ∈ (performKMeansIteration s).points, ∃ c,
        p.cluster = some c ∧ c < (performKMeansIteration s).centroids.length) ∧
    (performKMeansIteration s).centroids.length = s.centroids.length := by
  by_cases hp : s.points = []
  · rw [perform_eq_of_nil s (Or.inl hp)]
    refine ⟨?_, rfl⟩
    intro p hpmem
    rw [hp] at hpmem
    exact absurd hpmem (List.not_mem_nil p)
  · rw [perform_eq_of_ne_nil s hp hc]
    simp only
    refine ⟨?_, updateCentroids_length _ _ _⟩
    intro p hpmem
    obtain ⟨i, hil, rfl⟩ := List.mem_iff_getElem.mp hpmem
    have hlab : (computeLabels s.points s.centroids).length = s.points.length :=
      computeLabels_length _ _
    have hip : i < s.points.length := by
      rwa [assignClusters_length _ _ hlab] at hil
    rw [← List.getD_eq_getElem _ default hil, assignClusters_getD _ _ hlab hip]
    refine ⟨(computeLabels s.points s.centroids).getD i 0, rfl, ?_⟩
    rw [updateCentroids_length]
    exact computeLabels_getD_lt s.points s.centroids hc hip

/-- Witness for C9 at `stateC4`. -/
theorem C9_witness :
    stateC4.centroids ≠ [] ∧
    ((∀ p ∈ (performKMeansIteration stateC4).points, ∃ c,
        p.cluster = some c ∧ c < (performKMeansIteration stateC4).centroids.length) ∧
    (performKMeansIteration stateC4).centroids.length = stateC4.centroids.length) :=
  ⟨by decide, C9_assignment_validity stateC4 (by decide)⟩

/-- C10: in every state reachable from the initial render by the
component's handlers, the iteration counter equals the history length;
hence revert is available (history non-empty) exactly when the counter is
positive, and the `Math.max(0, prev - 1)` clamp in the revert handler
never takes effect. -/
theorem C10_counter_equals_history (s : KMState) (h : Reachable s) :
    s.currentIteration = s.iterationHistory.length ∧
    (0 < s.currentIteration ↔ s.iterationHistory ≠ []) ∧
    (s.iterationHistory ≠ [] →
      max 0 (s.currentIteration - 1) = s.currentIteration - 1) := by
  have inv := reachable_invariant h
  refine ⟨inv, ?_, ?_⟩
  · rw [inv]
    constructor
    · intro h0 hnil
      rw [hnil] at h0
      simp at h0
    · intro hne
      have := List.length_pos.mpr hne
      omega
  · intro hne
    have := List.length_pos.mpr hne
    rw [inv]
    omega

/-- Witness for C10 at the initial state. -/
theorem C10_witness :
    Reachable initialState ∧
    (initialState.currentIteration = initialState.iterationHistory.length ∧
    (0 < initialState.currentIteration ↔ initialState.iterationHistory ≠ []) ∧
    (initialState.iterationHistory ≠ [] →
      max 0 (initialState.currentIteration - 1) = initialState.currentIteration - 1)) :=
  ⟨Reachable.init, C10_counter_equals_history initialState Reachable.init⟩

lemma calculateDistanceSq_nonneg (p : Point) (c : Centroid) :
    0 ≤ calculateDistanceSq p c := by
  unfold calculateDistanceSq
  positivity

lemma distances_getD (p : Point) (cents : List Centroid) {j : ℕ}
    (hj : j < cents.length) :
    (cents.map (fun c => calculateDistanceSq p c)).getD j 0 =
      calculateDistanceSq p (cents.getD j default) := by
  rw [List.getD_eq_getElem _ _ (by simpa using hj), List.getD_eq_getElem _ _ hj,
    List.getElem_map]

lemma idxOfMin_dist_spec (p : Point) (cents : List Centroid) (hc : cents ≠ []) :
    idxOfMin (cents.map (fun c => calculateDistanceSq p c)) < cents.length ∧
    (∀ j, j < cents.length →
      calculateDistanceSq p
          (cents.getD (idxOfMin (cents.map (fun c => calculateDistanceSq p c))) default) ≤
        calculateDistanceSq p (cents.getD j default)) ∧
    (∀ j, j < idxOfMin (cents.map (fun c => calculateDistanceSq p c)) →
      calculateDistanceSq p
          (cents.getD (idxOfMin (cents.map (fun c => calculateDistanceSq p c))) default) <
        calculateDistanceSq p (cents.getD j default)) := by
  have hdl : (cents.map (fun c => calculateDistanceSq p c)) ≠ [] := by simpa using hc
  obtain ⟨hlt, hmin, hstrict⟩ := idxOfMin_spec _ hdl
  have hltc : idxOfMin (cents.map (fun c => calculateDistanceSq p c)) < cents.length := by
    simpa using hlt
  refine ⟨hltc, ?_, ?_⟩
  · intro j hj
    have h1 := hmin j (by simpa using hj)
    rwa [distances_getD p cents hltc, distances_getD p cents hj] at h1
  · intro j hj
    have hjc : j < cents.length := lt_trans hj hltc
    have h1 := hstrict j hj
    rwa [distances_getD p cents hltc, distances_getD p cents hjc] at h1

/-- C5: after an enabled `step()`, point `i` is assigned the label
`idxOfMin` of its distance row — an index into the centroid list whose
Euclidean distance (`Math.sqrt` of the squared distance) is minimal, and
strictly smaller than the distance to every earlier-indexed centroid, so
exact ties go to the lowest index.  The label is literally a function of
the points and centroids (last conjunct), hence deterministic. -/
theorem C5_nearest_assignment (s : KMState) (hp : s.points ≠ []) (hc : s.centroids ≠ [])
    (i : ℕ) (hi : i < s.points.length) :
    ∃ lbl : ℕ,
      ((performKMeansIteration s).points.getD i default).cluster = some lbl ∧
      lbl < s.centroids.length ∧
      (∀ j, j < s.centroids.length →
        Real.sqrt (calculateDistanceSq (s.points.getD i default)
            (s.centroids.getD lbl default)) ≤
          Real.sqrt (calculateDistanceSq (s.points.getD i default)
            (s.centroids.getD j default))) ∧
      (∀ j, j < lbl →
        Real.sqrt (calculateDistanceSq (s.points.getD i default)
            (s.centroids.getD lbl default)) <
          Real.sqrt (calculateDistanceSq (s.points.getD i default)
            (s.centroids.getD j default))) ∧
      lbl = idxOfMin (s.centroids.map
        (fun c => calculateDistanceSq (s.points.getD i default) c)) := by
  obtain ⟨hlt, hmin, hstrict⟩ := idxOfMin_dist_spec (s.points.getD i default) s.centroids hc
  refine ⟨idxOfMin (s.centroids.map
      (fun c => calculateDistanceSq (s.points.getD i default) c)), ?_, hlt, ?_, ?_, rfl⟩
  · rw [perform_eq_of_ne_nil s hp hc]
    simp only
    rw [assignClusters_getD _ _ (computeLabels_length _ _) hi,
      computeLabels_getD _ _ hi]
  · intro j hj
    exact Real.sqrt_le_sqrt (by exact_mod_cast hmin j hj)
  · intro j hj
    refine Real.sqrt_lt_sqrt ?_ (by exact_mod_cast hstrict j hj)
    exact_mod_cast calculateDistanceSq_nonneg _ _

/-- A state holding one point equidistant from the two centroids. -/
def stateC5 : KMState :=
  { points := [⟨0, 0, none, "p1"⟩]
    clusters := 2
    centroids := [⟨1, 0⟩, ⟨-1, 0⟩]
    clusterColors := []
    iterationHistory := []
    currentIteration := 0
    isConverged := false }

/-- Witness for C5 at `stateC5` (an exact two-way tie). -/
theorem C5_witness :
    stateC5.points ≠ [] ∧ stateC5.centroids ≠ [] ∧ 0 < stateC5.points.length ∧
    (∃ lbl : ℕ,
      ((performKMeansIteration stateC5).points.getD 0 default).cluster = some lbl ∧
      lbl < stateC5.centroids.length ∧
      (∀ j, j < stateC5.centroids.length →
        Real.sqrt (calculateDistanceSq (stateC5.points.getD 0 default)
            (stateC5.centroids.getD lbl default)) ≤
          Real.sqrt (calculateDistanceSq (stateC5.points.getD 0 default)
            (stateC5.centroids.getD j default))) ∧
      (∀ j, j < lbl →
        Real.sqrt (calculateDistanceSq (stateC5.points.getD 0 default)
            (stateC5.centroids.getD lbl default)) <
          Real.sqrt (calculateDistanceSq (stateC5.points.getD 0 default)
            (stateC5.centroids.getD j default))) ∧
      lbl = idxOfMin (stateC5.centroids.map
        (fun c => calculateDistanceSq (stateC5.points.getD 0 default) c))) :=
  ⟨by decide, by decide, by decide,
    C5_nearest_assignment stateC5 (by decide) (by decide) 0 (by decide)⟩

/-- C6: in an enabled `step()`, a centroid index that receives no
assigned point keeps exactly its pre-step coordinates, while a centroid
with at least one assigned point becomes the arithmetic mean of the `x`
and `y` coordinates of its assigned points. -/
theorem C6_empty_cluster_stability (s : KMState) (hp : s.points ≠ [])
    (hc : s.centroids ≠ []) (i : ℕ) (hi : i < s.centroids.length) :
    ((∀ j, j < s.points.length →
        (computeLabels s.points s.centroids).getD j 0 ≠ i) →
      (performKMeansIteration s).centroids.getD i default =
        s.centroids.getD i default) ∧
    (clusterPointsOf s.points (computeLabels s.points s.centroids) i ≠ [] →
      (performKMeansIteration s).centroids.getD i default =
        ⟨((clusterPointsOf s.points (computeLabels s.points s.centroids) i).map
              Point.x).sum /
            ((clusterPointsOf s.points (computeLabels s.points s.centroids) i).length : ℚ),
         ((clusterPointsOf s.points (computeLabels s.points s.centroids) i).map
              Point.y).sum /
            ((clusterPointsOf s.points (computeLabels s.points s.centroids) i).length : ℚ)⟩) := by
  rw [perform_eq_of_ne_nil s hp hc]
  simp only
  constructor
  · intro hno
    have hnil : clusterPointsOf s.points (computeLabels s.points s.centroids) i = [] :=
      (clusterPointsOf_eq_nil_iff _ _ i (computeLabels_length _ _)).mpr hno
    rw [updateCentroids_getD _ _ _ hi, if_pos (by rw [hnil]; rfl)]
  · intro hne
    have hlen : (clusterPointsOf s.points (computeLabels s.points s.centroids) i).length ≠ 0 := by
      simpa [List.length_eq_zero] using hne
    rw [updateCentroids_getD _ _ _ hi, if_neg hlen]
    have hx := foldl_add_eq_sum Point.x
      (clusterPointsOf s.points (computeLabels s.points s.centroids) i) 0
    have hy := foldl_add_eq_sum Point.y
      (clusterPointsOf s.points (computeLabels s.points s.centroids) i) 0
    rw [zero_add] at hx hy
    rw [hx, hy]

/-- A state where centroid `1` receives no point: the single point sits on
centroid `0`. -/
def stateC6 : KMState :=
  { points := [⟨0, 0, none, "p1"⟩]
    clusters := 2
    centroids := [⟨0, 0⟩, ⟨9, 9⟩]
    clusterColors := []
    iterationHistory := []
    currentIteration := 0
    isConverged := false }

/-- Witness for C6 at `stateC6`, centroid index `1`. -/
theorem C6_witness :
    stateC6.points ≠ [] ∧ stateC6.centroids ≠ [] ∧ 1 < stateC6.centroids.length ∧
    (((∀ j, j < stateC6.points.length →
        (computeLabels stateC6.points stateC6.centroids).getD j 0 ≠ 1) →
      (performKMeansIteration stateC6).centroids.getD 1 default =
        stateC6.centroids.getD 1 default) ∧
    (clusterPointsOf stateC6.points (computeLabels stateC6.points stateC6.centroids) 1 ≠ [] →
      (performKMeansIteration stateC6).centroids.getD 1 default =
        ⟨((clusterPointsOf stateC6.points
              (computeLabels stateC6.points stateC6.centroids) 1).map Point.x).sum /
            ((clusterPointsOf stateC6.points
              (computeLabels stateC6.points stateC6.centroids) 1).length : ℚ),
         ((clusterPointsOf stateC6.points
              (computeLabels stateC6.points stateC6.centroids) 1).map Point.y).sum /
            ((clusterPointsOf stateC6.points
              (computeLabels stateC6.points stateC6.centroids) 1).length : ℚ)⟩)) :=
  ⟨by decide, by decide, by decide,
    C6_empty_cluster_stability stateC6 (by decide) (by decide) 1 (by decide)⟩

/-- C7: after `initialize(k)` on a duplicate-free point list with
`1 ≤ k ≤ len(points)`, the centroid list has length exactly `k`, every
centroid carries the coordinates of some current point, the `k` sampled
source points (the first `k` of the shuffle) are distinct, and the
centroids are decoupled copies — adding a point afterwards leaves them
untouched. -/
theorem C7_initialization (s : KMState) (shuffled : List Point) (rng : ℕ → String)
    (_hk : 1 ≤ s.clusters) (hlen : s.clusters ≤ s.points.length)
    (hperm : shuffled.Perm s.points) (hnd : s.points.Nodup) :
    (initializeCentroids s shuffled rng).centroids.length = s.clusters ∧
    (∀ c ∈ (initializeCentroids s shuffled rng).centroids,
      ∃ p ∈ s.points, c.x = p.x ∧ c.y = p.y) ∧
    (shuffled.take s.clusters).length = s.clusters ∧
    (shuffled.take s.clusters).Nodup ∧
    (∀ x y : ℤ,
      (handleMouseDown (initializeCentroids s shuffled rng) x y).centroids =
        (initializeCentroids s shuffled rng).centroids) := by
  have hsl : shuffled.length = s.points.length := hperm.length_eq
  refine ⟨?_, ?_, ?_, ?_, ?_⟩
  · simp only [initializeCentroids, List.length_map, List.length_take, hsl]
    omega
  · intro c hcmem
    simp only [initializeCentroids, List.mem_map] at hcmem
    obtain ⟨p, hpmem, rfl⟩ := hcmem
    exact ⟨p, hperm.subset (List.take_subset _ _ hpmem), rfl, rfl⟩
  · rw [List.length_take, hsl]
    omega
  · exact List.Nodup.sublist (List.take_sublist _ _) (hperm.nodup_iff.mpr hnd)
  · intro x y
    unfold handleMouseDown
    split <;> rfl

/-- Two distinct points, `clusters = 2`. -/
def stateC7 : KMState :=
  { points := [⟨0, 0, none, "p1"⟩, ⟨1, 1, none, "p2"⟩]
    clusters := 2
    centroids := []
    clusterColors := []
    iterationHistory := []
    currentIteration := 0
    isConverged := false }

/-- Witness for C7 at `stateC7` with the identity shuffle. -/
theorem C7_witness :
    1 ≤ stateC7.clusters ∧ stateC7.clusters ≤ stateC7.points.length ∧
    stateC7.points.Perm stateC7.points ∧ stateC7.points.Nodup ∧
    ((initializeCentroids stateC7 stateC7.points (fun _ => "c")).centroids.length =
      stateC7.clusters ∧
    (∀ c ∈ (initializeCentroids stateC7 stateC7.points (fun _ => "c")).centroids,
      ∃ p ∈ stateC7.points, c.x = p.x ∧ c.y = p.y) ∧
    (stateC7.points.take stateC7.clusters).length = stateC7.clusters ∧
    (stateC7.points.take stateC7.clusters).Nodup ∧
    (∀ x y : ℤ,
      (handleMouseDown (initializeCentroids stateC7 stateC7.points (fun _ => "c")) x y).centroids =
        (initializeCentroids stateC7 stateC7.points (fun _ => "c")).centroids)) :=
  ⟨by decide, by decide, List.Perm.refl _, by decide,
    C7_initialization stateC7 stateC7.points (fun _ => "c")
      (by decide) (by decide) (List.Perm.refl _) (by decide)⟩

/-- C8: an enabled `step()` from a non-converged state sets
`converged = true` exactly when every recomputed centroid moved less than
`1/1000` in absolute value on both axes relative to its pre-step
position; and regardless of convergence the reassigned points, the
recomputed centroids and the incremented iteration counter are all
applied. -/
theorem C8_convergence_test (s : KMState) (hp : s.points ≠ []) (hc : s.centroids ≠ [])
    (hcv : s.isConverged = false) :
    ((performKMeansIteration s).isConverged = true ↔
      ∀ i, i < s.centroids.length →
        |((updateCentroids s.points (computeLabels s.points s.centroids)
              s.centroids).getD i default).x - (s.centroids.getD i default).x| < 1 / 1000 ∧
        |((updateCentroids s.points (computeLabels s.points s.centroids)
              s.centroids).getD i default).y - (s.centroids.getD i default).y| < 1 / 1000) ∧
    (performKMeansIteration s).centroids =
      updateCentroids s.points (computeLabels s.points s.centroids) s.centroids ∧
    (performKMeansIteration s).points =
      assignClusters s.points (computeLabels s.points s.centroids) ∧
    (performKMeansIteration s).currentIteration = s.currentIteration + 1 := by
  rw [perform_eq_of_ne_nil s hp hc]
  refine ⟨?_, rfl, rfl, rfl⟩
  simp only [hcv, Bool.false_or]
  exact convergenceCheck_iff _ _ (updateCentroids_length _ _ _)

/-- A non-converged state that converges in the next step: the single
point already lies on the single centroid. -/
def stateC8 : KMState :=
  { points := [⟨3, 4, none, "p1"⟩]
    clusters := 1
    centroids := [⟨3, 4⟩]
    clusterColors := []
    iterationHistory := []
    currentIteration := 0
    isConverged := false }

/-- Witness for C8 at `stateC8`. -/
theorem C8_witness :
    stateC8.points ≠ [] ∧ stateC8.centroids ≠ [] ∧ stateC8.isConverged = false ∧
    (((performKMeansIteration stateC8).isConverged = true ↔
      ∀ i, i < stateC8.centroids.length →
        |((updateCentroids stateC8.points (computeLabels stateC8.points stateC8.centroids)
              stateC8.centroids).getD i default).x -
            (stateC8.centroids.getD i default).x| < 1 / 1000 ∧
        |((updateCentroids stateC8.points (computeLabels stateC8.points stateC8.centroids)
              stateC8.centroids).getD i default).y -
            (stateC8.centroids.getD i default).y| < 1 / 1000) ∧
    (performKMeansIteration stateC8).centroids =
      updateCentroids stateC8.points (computeLabels stateC8.points stateC8.centroids)
        stateC8.centroids ∧
    (performKMeansIteration stateC8).points =
      assignClusters stateC8.points (computeLabels stateC8.points stateC8.centroids) ∧
    (performKMeansIteration stateC8).currentIteration = stateC8.currentIteration + 1) :=
  ⟨by decide, by decide, by decide,
    C8_convergence_test stateC8 (by decide) (by decide) (by decide)⟩

end KMeans
